import Mathlib

/-!
Verification of the reactive core of the `watch-history` repository.

The embedded code lives in `src/shared/src/{app.rs, tokens.rs, github.rs}`:

* `tokens.rs`: `Token`, `Tokens`, `Token::is_valid`, and `TokenStore`
  (`get_tokens` / `set_tokens` / `remove_tokens`), which persist the pair as a
  `bincode`-serialized blob under the fixed key `"github_tokens"`.
* `github.rs`: `GitHubAccessTokenResponse`, its conversion into `Tokens`
  (expiry offsets added to the receipt-time timestamp), the token manager
  `GitHubTokenManager::get_access_token` (load pair, unconditional
  write-through, validity checks, at most one refresh exchange), and the error
  type `GitHubApiError`.
* `app.rs`: the `Model`, the `Event` tagged union, and `App::update`, a pure
  reducer from a message and model to a new model plus a declarative command
  tree of effect requests (`Render`, `Http`, `Redirect`, `KeyValue`) and
  internal event dispatches.

Modelling conventions:

* Timestamps (`chrono::DateTime<Utc>`) are embedded as `Int`; the ambient
  `Utc::now()` read inside `Token::is_valid` becomes an explicit `now`
  argument.
* Rust `String`s are Lean `String`s; byte blobs are `List Nat`.  A string's
  wire length is its number of unicode scalars (one slot per `Char`), which
  coincides with the UTF-8 byte length on the ASCII data the program handles.
* `bincode` serialization of a struct is the concatenation of its fields'
  encodings, strings being length-prefixed (8-byte little-endian length, as
  bincode writes a `u64`).  chrono serializes a `DateTime<Utc>` as a string
  rendering of the instant; we embed that rendering as the length-prefixed
  signed decimal string of the `Int` timestamp — an injective rendering with
  a matching parser, which is what the round-trip property exercises.
* Fallible Rust code that `panic!`s / `.expect(..)`s is embedded with
  `Option`: a `none` result of the embedded function models process abort.
-/

/-! ## Data model (`tokens.rs`, `app.rs`, `github.rs`) -/

/-- `Token` from `tokens.rs`: an access credential with type, value and
expiry.  `expires_at : DateTime<Utc>` is embedded as an `Int` timestamp. -/
structure Token where
  token_type : String
  access_token : String
  expires_at : Int
deriving DecidableEq

/-- `Tokens` from `tokens.rs`: the persisted access/refresh pair. -/
structure Tokens where
  access_token : Token
  refresh_token : Token
deriving DecidableEq

/-- `Token::is_valid` from `tokens.rs`: `Utc::now() < self.expires_at`.
The ambient clock read is passed in as the explicit argument `now`. -/
def Token.is_valid (t : Token) (now : Int) : Bool :=
  decide (now < t.expires_at)

/-- `GitHubAuthenticatedUserResponse` from `github.rs`. -/
structure GitHubAuthenticatedUserResponse where
  login : String
  name : String
  avatar_url : String
deriving DecidableEq

/-- `GitHubAccessTokenResponse` from `github.rs`: the token endpoint's JSON
body.  `expires_in` / `refresh_token_expires_in` are `u64` second offsets. -/
structure GitHubAccessTokenResponse where
  access_token : String
  token_type : String
  scope : String
  expires_in : Nat
  refresh_token : String
  refresh_token_expires_in : Nat
deriving DecidableEq

/-- `impl From<GitHubAccessTokenResponse> for Tokens` from `github.rs`: both
tokens take the response's `token_type`, and each expiry offset is added to
`Utc::now()` read at response-receipt time (argument `now`). -/
def tokensFromResponse (r : GitHubAccessTokenResponse) (now : Int) : Tokens :=
  { access_token :=
      { token_type := r.token_type
        access_token := r.access_token
        expires_at := now + (r.expires_in : Int) }
    refresh_token :=
      { token_type := r.token_type
        access_token := r.refresh_token
        expires_at := now + (r.refresh_token_expires_in : Int) } }

/-- `GitHubConfiguration` from `app.rs`. -/
structure GitHubConfiguration where
  client_id : String
  client_secret : String
  redirect_uri : String
deriving DecidableEq

/-- `Configuration` from `app.rs`. -/
structure Configuration where
  github : GitHubConfiguration
deriving DecidableEq

/-- `UserInfo` from `app.rs`. -/
structure UserInfo where
  login : String
  name : String
  avatar_url : String
deriving DecidableEq

/-- `Rating` from `app.rs`: six ordinal levels. -/
inductive Rating where
  | veryBad
  | bad
  | meh
  | good
  | veryGood
  | goat
deriving DecidableEq

/-- `WatchedFilm` from `app.rs`. -/
structure WatchedFilm where
  title : String
  rating : Rating
  year_watched : Int
  month_of_year_watched : Int
deriving DecidableEq

/-! ## Serialization (`bincode` wire model used by `TokenStore`) -/

/-- Little-endian base-256 encoding of `n` into exactly `w` bytes
(bincode writes lengths as 8-byte little-endian `u64`). -/
def leBytes : Nat → Nat → List Nat
  | 0, _ => []
  | w + 1, n => n % 256 :: leBytes w (n / 256)

/-- Value of a little-endian byte list. -/
def leVal : List Nat → Nat
  | [] => 0
  | b :: bs => b + 256 * leVal bs

/-- bincode encoding of a Rust `String`: `u64` length then the bytes
(one slot per scalar, see the header comment). -/
def serStr (s : String) : List Nat :=
  leBytes 8 s.data.length ++ s.data.map Char.toNat

/-- Little-endian decimal digits of `n`, by fuel-guarded recursion so that it
reduces in the kernel; agrees with `Nat.digits 10` (see `decDigitsAux_eq`). -/
def decDigitsAux : Nat → Nat → List Nat
  | 0, _ => []
  | fuel + 1, n => if n = 0 then [] else n % 10 :: decDigitsAux fuel (n / 10)

/-- Decimal digit characters (as byte values) of `n`, most significant
first; empty for `0`. -/
def natDecBytes (n : Nat) : List Nat :=
  ((decDigitsAux n n).map (fun d => d + 48)).reverse

/-- The rendered timestamp string (as bytes): optional `-` sign then decimal
digits of the magnitude.  This embeds chrono's injective string rendering of
a `DateTime<Utc>`. -/
def dateTimeBody (i : Int) : List Nat :=
  if i < 0 then 45 :: natDecBytes i.natAbs else natDecBytes i.natAbs

/-- bincode encoding of the timestamp field: the rendered string,
length-prefixed like any other string. -/
def serDateTime (i : Int) : List Nat :=
  leBytes 8 (dateTimeBody i).length ++ dateTimeBody i

/-- bincode encoding of a `Token`: its fields in declaration order. -/
def serToken (t : Token) : List Nat :=
  serStr t.token_type ++ serStr t.access_token ++ serDateTime t.expires_at

/-- `bincode::serialize(&tokens)` as performed by `TokenStore::set_tokens`:
the two `Token` fields in declaration order. -/
def serializeTokens (t : Tokens) : List Nat :=
  serToken t.access_token ++ serToken t.refresh_token

/-! ## Deserialization (`bincode::deserialize::<Tokens>` in `get_tokens`) -/

/-- Split off exactly `n` bytes, failing on short input. -/
def readN (n : Nat) (l : List Nat) : Option (List Nat × List Nat) :=
  if n ≤ l.length then some (l.take n, l.drop n) else none

/-- Read a `u64` length prefix, then that many bytes. -/
def parseLenPrefixed (l : List Nat) : Option (List Nat × List Nat) := do
  let (lenBytes, rest) ← readN 8 l
  readN (leVal lenBytes) rest

/-- Parse a length-prefixed string. -/
def parseStr (l : List Nat) : Option (String × List Nat) :=
  (parseLenPrefixed l).map fun p => (String.mk (p.1.map Char.ofNat), p.2)

/-- Is this byte a decimal digit character? -/
def isDigitByte (b : Nat) : Bool :=
  decide (48 ≤ b) && decide (b ≤ 57)

/-- Numeric value of big-endian decimal digit bytes. -/
def parseDecNat (bs : List Nat) : Nat :=
  Nat.ofDigits 10 ((bs.map (fun b => b - 48)).reverse)

/-- Interpret a rendered timestamp string: an optional leading `-` then
decimal digits, anything else rejected (chrono's deserializer rejects
strings it did not produce). -/
def decodeBody (body rest : List Nat) : Option (Int × List Nat) :=
  if body.head? = some 45 then
    if body.tail.all isDigitByte && !body.tail.isEmpty then
      some (-(parseDecNat body.tail : Int), rest)
    else none
  else
    if body.all isDigitByte then some ((parseDecNat body : Int), rest) else none

/-- Parse the length-prefixed timestamp string back into an `Int`. -/
def parseDateTime (l : List Nat) : Option (Int × List Nat) := do
  let (body, rest) ← parseLenPrefixed l
  decodeBody body rest

/-- Parse one `Token` (fields in declaration order). -/
def parseToken (l : List Nat) : Option (Token × List Nat) :=
  (parseStr l).bind fun p1 =>
    (parseStr p1.2).bind fun p2 =>
      (parseDateTime p2.2).map fun p3 => (⟨p1.1, p2.1, p3.1⟩, p3.2)

/-- `bincode::deserialize::<Tokens>(&data)`: two `Token`s in order; trailing
bytes are ignored, as `bincode::deserialize` does not demand full
consumption. -/
def deserializeTokens (l : List Nat) : Option Tokens :=
  (parseToken l).bind fun p1 =>
    (parseToken p1.2).map fun p2 => ⟨p1.1, p2.1⟩

/-- Error type of the key-value capability (`crux_kv`), opaque to the core. -/
inductive KVError where
  | failure (msg : String)
deriving DecidableEq

/-- The pure tail of `TokenStore::get_tokens` from `tokens.rs`: the mapping
applied to the capability's `Result<Option<Vec<u8>>, KeyValueError>` —
`x.ok().flatten().and_then(|data| bincode::deserialize(&data).ok())`. -/
def getTokensFromResponse (resp : Except KVError (Option (List Nat))) : Option Tokens :=
  match resp with
  | .error _ => none
  | .ok none => none
  | .ok (some data) => deserializeTokens data

/-! ## Token manager (`GitHubTokenManager::get_access_token`, `github.rs`) -/

/-- One capability call made by the token manager, in the order issued:
the key-value read of the stored pair, the unconditional write-through,
and (at most once) the refresh exchange against the token endpoint, whose
argument is the refresh token's value. -/
inductive ManagerCall where
  | kvGet
  | kvSet (blob : List Nat)
  | httpRefreshExchange (refresh_token : String)
deriving DecidableEq

/-- Is this call a network (HTTP) call?  Key-value operations are storage,
not network. -/
def ManagerCall.isNetwork : ManagerCall → Bool
  | .httpRefreshExchange _ => true
  | _ => false

/-- Is this call a key-value write? -/
def ManagerCall.isKvSet : ManagerCall → Bool
  | .kvSet _ => true
  | _ => false

/-- `GitHubTokenManager::get_access_token` from `github.rs`, as a function of
the host's answers: `stored` is the pair the key-value read returns (after
`get_tokens`' decoding), `now` the clock at the validity checks, `resp` and
`respTime` the refresh exchange's response body and receipt time (consulted
only on the refresh path).  Result: the returned `Option<Token>` and the
ordered list of capability calls made.  Mirrors the source: load the pair
(`kvGet`); if absent return `None`; otherwise write the loaded pair back
unconditionally (`kvSet`), then return the access token if still valid, else
refresh (one exchange) if the refresh token is valid, else `None`. -/
def getAccessTokenRun (stored : Option Tokens) (now : Int)
    (resp : GitHubAccessTokenResponse) (respTime : Int) :
    Option Token × List ManagerCall :=
  match stored with
  | none => (none, [ManagerCall.kvGet])
  | some tokens =>
    let calls := [ManagerCall.kvGet, ManagerCall.kvSet (serializeTokens tokens)]
    if tokens.access_token.is_valid now then
      (some tokens.access_token, calls)
    else if tokens.refresh_token.is_valid now then
      (some (tokensFromResponse resp respTime).access_token,
        calls ++ [ManagerCall.httpRefreshExchange tokens.refresh_token.access_token])
    else
      (none, calls)

/-! ## Reducer-side error handling (`app.rs`) -/

/-- `GitHubApiError` from `github.rs`: a transport-level HTTP failure is a
separate variant from "re-authentication required".  The `HttpError` payload
is embedded as its message string. -/
inductive GitHubApiError where
  | httpError (err : String)
  | reAuthenticationRequired
deriving DecidableEq


/-! ## Callback URL parsing (model of the `url` crate as used in `app.rs`) -/

/-- Split a character list at the first occurrence of `c`: the part before,
and — when `c` occurs — the part after. -/
def splitFirst (c : Char) : List Char → List Char × Option (List Char)
  | [] => ([], none)
  | x :: xs =>
    if x = c then ([], some xs)
    else
      let p := splitFirst c xs
      (x :: p.1, p.2)

/-- Split a character list on every occurrence of `c`. -/
def splitAll (c : Char) : List Char → List (List Char)
  | [] => [[]]
  | x :: xs =>
    if x = c then [] :: splitAll c xs
    else
      match splitAll c xs with
      | [] => [[x]]
      | y :: ys => (x :: y) :: ys

/-- One `key=value` query pair; a part without `=` yields an empty value,
as `Url::query_pairs` does.  Empty parts produce no pair. -/
def queryPairOf (part : List Char) : Option (String × String) :=
  match part with
  | [] => none
  | _ =>
    let p := splitFirst '=' part
    some (String.mk p.1, String.mk (p.2.getD []))

/-- The `key=value` pairs of a raw query string. -/
def parseQuery (q : List Char) : List (String × String) :=
  (splitAll '&' q).filterMap queryPairOf

/-- The outcome of `Url::parse` that the reducer consumes: the scheme and
the decomposed query pairs. -/
structure ParsedUrl where
  scheme : String
  query : List (String × String)
deriving DecidableEq

/-- Model of `Url::parse` from the `url` crate: an absolute URL must start
with a nonempty alphabetic scheme followed by `:`; anything else (in
particular a relative or garbled string) is a parse error.  The query is the
part strictly between the first `?` and a `#` (percent-decoding is not
modelled; the program's callback parameters are plain ASCII). -/
def parseUrl (s : String) : Option ParsedUrl :=
  let cs := s.data
  let scheme := cs.takeWhile Char.isAlpha
  let rest := cs.drop scheme.length
  match scheme, rest with
  | [], _ => none
  | _, ':' :: afterColon =>
    let afterQ := afterColon.dropWhile (fun c => c ≠ '?')
    let q :=
      match afterQ with
      | [] => []
      | _ :: qs => parseQuery (qs.takeWhile (fun c => c ≠ '#'))
    some ⟨String.mk scheme, q⟩
  | _, _ => none

/-- `query_pairs().find_map(..)` on the key `code` (`app.rs`,
`Event::CallbackReceived` arm): the first pair whose key is `"code"`. -/
def findCode (u : ParsedUrl) : Option String :=
  (u.query.find? (fun p => p.1 == "code")).map (fun p => p.2)

/-! ## Watch-history markdown walk (`app.rs`, `Event::GotWatchHistoryFile`) -/

/-- The fragment of the `markdown` crate's mdast `Node` the walk inspects.
`markdown::to_mdast` itself is the external parser; the event payload below
carries the parsed root's children. -/
inductive MdNode where
  | heading (depth : Nat) (children : List MdNode)
  | text (value : String)
  | list (children : List MdNode)
  | listItem (children : List MdNode)
  | paragraph (children : List MdNode)
  | other

/-- Model of `str::trim`: drop leading and trailing whitespace. -/
def trimChars (cs : List Char) : List Char :=
  ((cs.dropWhile Char.isWhitespace).reverse.dropWhile Char.isWhitespace).reverse

/-- `value.trim()` on a string. -/
def trimStr (s : String) : String :=
  String.mk (trimChars s.data)

/-- Model of `str::to_lowercase` (ASCII case folding suffices here). -/
def lowerStr (s : String) : String :=
  String.mk (s.data.map Char.toLower)

/-- Nonempty all-digit character list to its value. -/
def parseDigitsNat (cs : List Char) : Option Nat :=
  match cs with
  | [] => none
  | _ =>
    if cs.all Char.isDigit then
      some (cs.foldl (fun a c => a * 10 + (c.toNat - 48)) 0)
    else none

/-- Model of `i16::from_str`: optional sign, decimal digits, range check. -/
def parseI16 (s : String) : Option Int :=
  match s.data with
  | '-' :: ds => (parseDigitsNat ds).bind fun n =>
      if n ≤ 32768 then some (-(n : Int)) else none
  | '+' :: ds => (parseDigitsNat ds).bind fun n =>
      if n ≤ 32767 then some ((n : Int)) else none
  | ds => (parseDigitsNat ds).bind fun n =>
      if n ≤ 32767 then some ((n : Int)) else none

/-- `month_of_year_from_str` from `app.rs`. -/
def month_of_year_from_str (s : String) : Option Int :=
  match lowerStr (trimStr s) with
  | "january" => some 1
  | "february" => some 2
  | "march" => some 3
  | "april" => some 4
  | "may" => some 5
  | "june" => some 6
  | "july" => some 7
  | "august" => some 8
  | "september" => some 9
  | "october" => some 10
  | "november" => some 11
  | "december" => some 12
  | _ => none

/-- `rating_from_str` from `app.rs`. -/
def rating_from_str (s : String) : Option Rating :=
  match lowerStr (trimStr s) with
  | "very bad" => some Rating.veryBad
  | "bad" => some Rating.bad
  | "meh" => some Rating.meh
  | "good" => some Rating.good
  | "very good" => some Rating.veryGood
  | "goat" => some Rating.goat
  | _ => none

/-- Model of `str::split_once('-')`. -/
def splitOnceChar (c : Char) (s : String) : Option (String × String) :=
  let p := splitFirst c s.data
  match p.2 with
  | none => none
  | some b => some (String.mk p.1, String.mk b)

/-- The local accumulation structs of `parse_films_from_list` (`app.rs`).
Months within a year and years within the accumulator are kept most-recent
first, mirroring `last_mut` access; films within a month are in order. -/
structure PFilm where
  title : String
  rating : Rating

structure PMonth where
  month_of_year : Int
  films : List PFilm

structure PYear where
  name : Int
  months : List PMonth

/-- The list-item loop of `parse_films_from_list`: a list item contributes a
film when its first child is a paragraph whose first child is text of the
shape `title - rating`; all other items are skipped. -/
def filmsOfListItems (children : List MdNode) (films : List PFilm) : List PFilm :=
  children.foldl
    (fun acc child =>
      match child with
      | MdNode.listItem (MdNode.paragraph (MdNode.text v :: _) :: _) =>
        match splitOnceChar '-' v with
        | some p =>
          match rating_from_str p.2 with
          | some r => acc ++ [⟨trimStr p.1, r⟩]
          | none => acc
        | none => acc
      | _ => acc)
    films

/-- The node loop of `parse_films_from_list`: depth-2 headings whose first
child is text parsing as an `i16` open a year; depth-3 headings whose first
child is a known month name open a month inside the current year; lists add
films to the current month of the current year; everything else is
skipped. -/
def walkNodes (nodes : List MdNode) : List PYear :=
  nodes.foldl
    (fun years node =>
      match node with
      | MdNode.heading 2 (MdNode.text v :: _) =>
        match parseI16 (trimStr v) with
        | some y => ⟨y, []⟩ :: years
        | none => years
      | MdNode.heading 3 (MdNode.text v :: _) =>
        match month_of_year_from_str v, years with
        | some m, yr :: rest => { yr with months := ⟨m, []⟩ :: yr.months } :: rest
        | _, _ => years
      | MdNode.list children =>
        match years with
        | yr :: rest =>
          match yr.months with
          | mo :: mrest =>
            { yr with
              months := { mo with films := filmsOfListItems children mo.films } :: mrest } :: rest
          | [] => years
        | [] => years
      | _ => years)
    []

/-- `parse_films_from_list` from `app.rs`: walk the root's children, then
flatten years → months → films in document order. -/
def parse_films_from_list (root : List MdNode) : List WatchedFilm :=
  ((walkNodes root).reverse.map
    (fun y =>
      (y.months.reverse.map
        (fun mo =>
          mo.films.map (fun f =>
            WatchedFilm.mk f.title f.rating y.name mo.month_of_year))).flatten)).flatten

/-! ## Events, effects and commands (`app.rs`) -/

/-- `Event` from `app.rs`.  `GotWatchHistoryFile` carries the children of the
mdast root produced by the external `markdown::to_mdast` parser (which, with
default options, succeeds on every input), instead of the raw string. -/
inductive Event where
  | initialLoad
  | loginButtonClicked
  | logoutButtonClicked
  | callbackReceived (url : String)
  | redirectToLogin
  | setTokensInStore (tokens : Tokens)
  | getTokensFromStore
  | gotTokensFromStore (tokens : Option Tokens)
  | getTokensFromGitHub (code : Option String)
  | gotTokensFromGitHub (tokens : Tokens)
  | getGithubUser
  | gotGitHubUser (user : GitHubAuthenticatedUserResponse)
  | getWatchHistoryFile (user_info : UserInfo)
  | gotWatchHistoryFile (root : List MdNode)
  | onTokensLoaded (tokens : Tokens) (suppress_store : Bool)

/-- An HTTP request as described by an effect. -/
structure HttpReq where
  method : String
  url : String
  headers : List (String × String)
  query : List (String × String)

/-- One effect request handed to the host, mirroring the `Effect` enum of
`app.rs` (`Render`, `Http`, `Redirect`, `KeyValue`), with the key-value
operation split into its three verbs. -/
inductive Eff where
  | render
  | http (req : HttpReq)
  | redirect (url : String)
  | kvGet (key : String)
  | kvSet (key : String) (value : List Nat)
  | kvDelete (key : String)

/-- Is this effect a render request? -/
def Eff.isRender : Eff → Bool
  | .render => true
  | _ => false

/-- Is this effect a key-value write? -/
def Eff.isKvSet : Eff → Bool
  | .kvSet _ _ => true
  | _ => false

/-- A `crux_core::Command` tree: host requests, internal event dispatches,
and the `and` (concurrent) / `then` (sequential) combinators.  A chained
request builder (`then_send`, the token-manager and GitHub-client chains) is
embedded by its first host request: every later step of such a chain runs
only after a host response arrives, i.e. outside the dispatch currently being
processed (the chain bodies themselves are embedded separately, e.g. as
`getAccessTokenRun`). -/
inductive Cmd where
  | done
  | effect (e : Eff)
  | event (e : Event)
  | par (a b : Cmd)
  | seq (a b : Cmd)

/-- The host requests of one command tree, in emission order, not following
internal event dispatches: the effect plan of a single `update` call. -/
def Cmd.effects : Cmd → List Eff
  | .done => []
  | .effect e => [e]
  | .event _ => []
  | .par a b => a.effects ++ b.effects
  | .seq a b => a.effects ++ b.effects

/-- `GITHUB_TOKENS_STORAGE_KEY` from `tokens.rs`. -/
def tokenKey : String := "github_tokens"

/-- `Model` from `app.rs`.  Of the `Services` struct only the configuration
is observable in the effect plans (the clients' base URLs surface only in
requests issued after host responses, outside a single dispatch). -/
structure Model where
  config : Configuration
  user_info : Option UserInfo
  films : List WatchedFilm

/-- The map `IntoEvent::into_event` applies to a `Result<T, GitHubApiError>`
(`app.rs`): success maps through `map`; `ReAuthenticationRequired` becomes
`Event::RedirectToLogin`; a transport-level `HttpError` hits `panic!`,
embedded as `none` (process abort). -/
def intoEvent {α : Type} (r : Except GitHubApiError α) (map : α → Event) : Option Event :=
  match r with
  | .ok v => some (map v)
  | .error GitHubApiError.reAuthenticationRequired => some Event.redirectToLogin
  | .error (GitHubApiError.httpError _) => none

/-- `key=value` pairs joined with `&`, as `serde_qs::to_string` renders the
flat query structs of `app.rs` (field order preserved; the program's values
need no percent-escaping). -/
def buildQuery (ps : List (String × String)) : String :=
  String.intercalate "&" (ps.map (fun p => p.1 ++ "=" ++ p.2))

/-- The authorize URL built by the `Event::RedirectToLogin` arm: the fixed
endpoint with `client_id`, `redirect_uri` and the sampled `state` as query
parameters, in the field order of the arm's `QueryParams` struct. -/
def authorizeUrl (cfg : Configuration) (state : String) : String :=
  "https://github.com/login/oauth/authorize?" ++
    buildQuery
      [("client_id", cfg.github.client_id),
       ("redirect_uri", cfg.github.redirect_uri),
       ("state", state)]

/-- The token-endpoint request built by
`GitHubAuthenticationHandler::get_access_token_from_code` (`github.rs`):
POST to the fixed endpoint, GitHub JSON media type, and the authorization-
code grant's query parameters in the field order of its `QueryParams`
struct — in particular the `code` parameter carries the callback's code. -/
def tokenExchangeRequest (cfg : Configuration) (code : String) : HttpReq :=
  { method := "POST"
    url := "https://github.com/login/oauth/access_token"
    headers := [("Accept", "application/vnd.github+json")]
    query :=
      [("client_id", cfg.github.client_id),
       ("client_secret", cfg.github.client_secret),
       ("redirect_uri", cfg.github.redirect_uri),
       ("code", code)] }

/-- `App::update` from `app.rs`, arm by arm.  `rng` is the alphanumeric
`state` string sampled from the OS RNG in the `RedirectToLogin` arm.  `none`
models a `panic!`: the `CallbackReceived` arm calls
`Url::parse(&url).expect("invalid callback URL")`, which aborts on a
malformed URL. -/
def update (msg : Event) (m : Model) (rng : String) : Option (Model × Cmd) :=
  match msg with
  | .initialLoad =>
    some (m, Cmd.par (Cmd.effect Eff.render) (Cmd.event Event.getGithubUser))
  | .setTokensInStore tokens =>
    some (m, Cmd.par (Cmd.effect Eff.render)
      (Cmd.effect (Eff.kvSet tokenKey (serializeTokens tokens))))
  | .getTokensFromStore =>
    some (m, Cmd.par (Cmd.effect Eff.render) (Cmd.effect (Eff.kvGet tokenKey)))
  | .gotTokensFromStore (some tokens) =>
    some (m, Cmd.par (Cmd.effect Eff.render)
      (Cmd.event (Event.onTokensLoaded tokens true)))
  | .gotTokensFromStore none =>
    some (m, Cmd.effect Eff.render)
  | .loginButtonClicked =>
    some (m, Cmd.par (Cmd.effect Eff.render) (Cmd.event Event.redirectToLogin))
  | .logoutButtonClicked =>
    some ({ m with user_info := none },
      Cmd.seq (Cmd.effect Eff.render) (Cmd.effect (Eff.kvDelete tokenKey)))
  | .redirectToLogin =>
    some (m, Cmd.effect (Eff.redirect (authorizeUrl m.config rng)))
  | .callbackReceived url =>
    match parseUrl url with
    | none => none
    | some parts =>
      some (m, Cmd.par (Cmd.effect Eff.render)
        (Cmd.event (Event.getTokensFromGitHub (findCode parts))))
  | .getTokensFromGitHub none =>
    some (m, Cmd.effect Eff.render)
  | .getTokensFromGitHub (some code) =>
    some (m, Cmd.par (Cmd.effect Eff.render)
      (Cmd.effect (Eff.http (tokenExchangeRequest m.config code))))
  | .gotTokensFromGitHub tokens =>
    some (m, Cmd.par (Cmd.effect Eff.render)
      (Cmd.event (Event.onTokensLoaded tokens false)))
  | .getGithubUser =>
    some (m, Cmd.par (Cmd.effect Eff.render) (Cmd.effect (Eff.kvGet tokenKey)))
  | .gotGitHubUser user =>
    let ui : UserInfo := ⟨user.login, user.name, user.avatar_url⟩
    some ({ m with user_info := some ui },
      Cmd.seq (Cmd.effect Eff.render) (Cmd.event (Event.getWatchHistoryFile ui)))
  | .onTokensLoaded tokens suppress =>
    some (m, Cmd.par (Cmd.effect Eff.render)
      (Cmd.seq
        (if !suppress then Cmd.event (Event.setTokensInStore tokens) else Cmd.done)
        (Cmd.event Event.getGithubUser)))
  | .getWatchHistoryFile _ =>
    some (m, Cmd.effect (Eff.kvGet tokenKey))
  | .gotWatchHistoryFile root =>
    some ({ m with films := parse_films_from_list root }, Cmd.effect Eff.render)

/-- Run a command tree, following internal event dispatches through `update`
(depth bounded by `fuel`; the dispatch graph is acyclic, so any fuel beyond
its depth is enough).  Returns the final model and the host requests in
emission order; `none` propagates a panic (or exhausted fuel). -/
def runCmd (rng : String) : Nat → Model → Cmd → Option (Model × List Eff)
  | 0, _, _ => none
  | _ + 1, m, Cmd.done => some (m, [])
  | _ + 1, m, Cmd.effect e => some (m, [e])
  | fuel + 1, m, Cmd.event ev =>
    match update ev m rng with
    | none => none
    | some mc => runCmd rng fuel mc.1 mc.2
  | fuel + 1, m, Cmd.par a b =>
    match runCmd rng fuel m a with
    | none => none
    | some p =>
      match runCmd rng fuel p.1 b with
      | none => none
      | some q => some (q.1, p.2 ++ q.2)
  | fuel + 1, m, Cmd.seq a b =>
    match runCmd rng fuel m a with
    | none => none
    | some p =>
      match runCmd rng fuel p.1 b with
      | none => none
      | some q => some (q.1, p.2 ++ q.2)

/-- Process one message: the cascade of `update` calls rooted at `e`,
stopping (as the host does) at effect requests. -/
def runEvent (fuel : Nat) (m : Model) (rng : String) (e : Event) :
    Option (Model × List Eff) :=
  match update e m rng with
  | none => none
  | some mc => runCmd rng fuel mc.1 mc.2

/-- The arms of `update` that schedule no render: `RedirectToLogin` returns
only the redirect command, and `GetWatchHistoryFile` returns only the
authenticated file-fetch chain. -/
def noRenderArm : Event → Bool
  | Event.redirectToLogin => true
  | Event.getWatchHistoryFile _ => true
  | _ => false

/-- A concrete configuration for witnesses and counterexamples. -/
def cfg0 : Configuration :=
  ⟨⟨"client0", "secret0", "https://app/cb"⟩⟩

/-- A concrete model state for witnesses and counterexamples. -/
def m0 : Model :=
  ⟨cfg0, none, []⟩

/-- The parse of the concrete callback URL used in the witnesses. -/
def parts0 : ParsedUrl :=
  ⟨"https", [("code", "abc123")]⟩


/-! ## Serialization round-trip lemmas -/

theorem leBytes_length (w n : Nat) : (leBytes w n).length = w := by
  induction w generalizing n with
  | zero => rfl
  | succ w ih => simp [leBytes, ih]

theorem leVal_leBytes (w n : Nat) : leVal (leBytes w n) = n % 256 ^ w := by
  induction w generalizing n with
  | zero => simp [leBytes, leVal, Nat.mod_one]
  | succ w ih =>
    rw [leBytes, leVal, ih, pow_succ, mul_comm (256 ^ w) 256]
    exact Nat.mod_mul.symm

theorem readN_exact (a r : List Nat) : readN a.length (a ++ r) = some (a, r) := by
  unfold readN
  rw [if_pos (by simp)]
  rw [List.take_left, List.drop_left]

theorem parseLenPrefixed_of (pre b r : List Nat)
    (h8 : readN 8 (pre ++ (b ++ r)) = some (pre, b ++ r))
    (hval : leVal pre = b.length) :
    parseLenPrefixed (pre ++ (b ++ r)) = some (b, r) := by
  unfold parseLenPrefixed
  rw [h8]
  show readN (leVal pre) (b ++ r) = some (b, r)
  rw [hval]
  exact readN_exact b r

theorem parseLenPrefixed_rt (b r : List Nat) (h : b.length < 2 ^ 64) :
    parseLenPrefixed (leBytes 8 b.length ++ (b ++ r)) = some (b, r) := by
  apply parseLenPrefixed_of
  · have he := readN_exact (leBytes 8 b.length) (b ++ r)
    rwa [leBytes_length] at he
  · rw [leVal_leBytes]
    apply Nat.mod_eq_of_lt
    calc b.length < 2 ^ 64 := h
      _ ≤ 256 ^ 8 := by norm_num

theorem parseStr_serStr (s : String) (r : List Nat) (h : s.data.length < 2 ^ 64) :
    parseStr (serStr s ++ r) = some (s, r) := by
  unfold parseStr serStr
  rw [List.append_assoc]
  have hlen : (s.data.map Char.toNat).length = s.data.length := by simp
  rw [← hlen]
  rw [parseLenPrefixed_rt _ _ (by rw [hlen]; exact h)]
  simp [List.map_map, Function.comp_def, Char.ofNat_toNat]

theorem decDigitsAux_eq (fuel n : Nat) (h : n ≤ fuel) :
    decDigitsAux fuel n = Nat.digits 10 n := by
  induction fuel generalizing n with
  | zero =>
    have : n = 0 := Nat.le_zero.mp h
    subst this
    simp [decDigitsAux]
  | succ fuel ih =>
    by_cases hn : n = 0
    · subst hn
      simp [decDigitsAux]
    · rw [decDigitsAux, if_neg hn]
      have hdiv : n / 10 ≤ fuel := by
        have : n / 10 < n := Nat.div_lt_self (Nat.pos_of_ne_zero hn) (by norm_num)
        omega
      rw [ih _ hdiv, Nat.digits_def' (by norm_num : 1 < 10) (Nat.pos_of_ne_zero hn)]

theorem mem_natDecBytes (n x : Nat) (hx : x ∈ natDecBytes n) : 48 ≤ x ∧ x ≤ 57 := by
  unfold natDecBytes at hx
  rw [List.mem_reverse, List.mem_map] at hx
  obtain ⟨d, hd, rfl⟩ := hx
  rw [decDigitsAux_eq n n le_rfl] at hd
  have : d < 10 := Nat.digits_lt_base (by norm_num) hd
  omega

theorem natDecBytes_all (n : Nat) : (natDecBytes n).all isDigitByte = true := by
  rw [List.all_eq_true]
  intro x hx
  have := mem_natDecBytes n x hx
  simp only [isDigitByte, Bool.and_eq_true, decide_eq_true_eq]
  omega

theorem parseDecNat_natDecBytes (n : Nat) : parseDecNat (natDecBytes n) = n := by
  unfold parseDecNat natDecBytes
  rw [List.map_reverse, List.reverse_reverse, List.map_map]
  have hc : ((fun b => b - 48) ∘ fun d => d + 48) = id := by
    funext d
    simp
  rw [hc, List.map_id, decDigitsAux_eq n n le_rfl, Nat.ofDigits_digits]

theorem natDecBytes_eq_nil_iff (n : Nat) : natDecBytes n = [] ↔ n = 0 := by
  unfold natDecBytes
  rw [List.reverse_eq_nil_iff, List.map_eq_nil_iff, decDigitsAux_eq n n le_rfl]
  exact Nat.digits_eq_nil_iff_eq_zero

theorem parseDateTime_body (l body rest : List Nat)
    (hp : parseLenPrefixed l = some (body, rest)) :
    parseDateTime l = decodeBody body rest := by
  unfold parseDateTime
  rw [hp]
  rfl

theorem parseDateTime_rt (i : Int) (r : List Nat) (h : (dateTimeBody i).length < 2 ^ 64) :
    parseDateTime (serDateTime i ++ r) = some (i, r) := by
  have hp : parseLenPrefixed (leBytes 8 (dateTimeBody i).length ++ (dateTimeBody i ++ r)) =
      some (dateTimeBody i, r) := parseLenPrefixed_rt _ _ h
  unfold serDateTime
  rw [List.append_assoc, parseDateTime_body _ _ _ hp]
  by_cases hi : i < 0
  · have hne : i.natAbs ≠ 0 := by
      intro h0
      rw [Int.natAbs_eq_zero] at h0
      omega
    have hbody : dateTimeBody i = 45 :: natDecBytes i.natAbs := by
      unfold dateTimeBody
      rw [if_pos hi]
    have hne' : (natDecBytes i.natAbs).isEmpty = false := by
      rcases hb : natDecBytes i.natAbs with _ | ⟨x, xs⟩
      · exact absurd ((natDecBytes_eq_nil_iff _).mp hb) hne
      · rfl
    rw [hbody]
    unfold decodeBody
    rw [if_pos (show (45 :: natDecBytes i.natAbs).head? = some 45 from rfl)]
    simp only [List.tail_cons]
    rw [natDecBytes_all, hne']
    rw [if_pos (show (true && !false) = true from rfl)]
    rw [parseDecNat_natDecBytes]
    have habs : -(i.natAbs : Int) = i := by omega
    rw [habs]
  · have hbody : dateTimeBody i = natDecBytes i.natAbs := by
      unfold dateTimeBody
      rw [if_neg hi]
    have hhead : ¬ (natDecBytes i.natAbs).head? = some 45 := by
      rcases hb : natDecBytes i.natAbs with _ | ⟨x, xs⟩
      · simp
      · have hx : x ∈ natDecBytes i.natAbs := by
          rw [hb]
          exact List.mem_cons_self x xs
        have hbound := mem_natDecBytes i.natAbs x hx
        simp only [List.head?_cons, Option.some.injEq]
        omega
    rw [hbody]
    unfold decodeBody
    rw [if_neg hhead, if_pos (natDecBytes_all i.natAbs), parseDecNat_natDecBytes]
    have habs : (i.natAbs : Int) = i := by omega
    rw [habs]

/-- Well-formedness needed for the round trip: the string fields and the
rendered timestamp fit in a `u64` length prefix (always true of real data;
`bincode` lengths are `u64`). -/
def TokenWF (t : Token) : Prop :=
  t.token_type.data.length < 2 ^ 64 ∧ t.access_token.data.length < 2 ^ 64 ∧
    (dateTimeBody t.expires_at).length < 2 ^ 64

/-- Well-formedness of a pair, fieldwise. -/
def TokensWF (t : Tokens) : Prop :=
  TokenWF t.access_token ∧ TokenWF t.refresh_token

instance (t : Token) : Decidable (TokenWF t) := by
  unfold TokenWF
  infer_instance

instance (t : Tokens) : Decidable (TokensWF t) := by
  unfold TokensWF
  infer_instance

theorem parseToken_rt (t : Token) (r : List Nat) (h : TokenWF t) :
    parseToken (serToken t ++ r) = some (t, r) := by
  obtain ⟨h1, h2, h3⟩ := h
  unfold parseToken serToken
  rw [List.append_assoc, List.append_assoc]
  rw [parseStr_serStr _ _ h1]
  rw [Option.some_bind]
  simp only
  rw [parseStr_serStr _ _ h2]
  rw [Option.some_bind]
  simp only
  rw [parseDateTime_rt _ _ h3]
  rfl

theorem parseToken_rt_nil (t : Token) (h : TokenWF t) :
    parseToken (serToken t) = some (t, []) := by
  have := parseToken_rt t [] h
  rwa [List.append_nil] at this

/-! ## Claim theorems: tokens, serialization, token manager -/

/-- C5.  For every token and every evaluation time, `is_valid` is true iff
the evaluation time is strictly before the token's `expires_at`; in
particular, evaluating exactly at `expires_at` yields invalid. -/
theorem is_valid_iff_strictly_before (now : Int) (t : Token) :
    (t.is_valid now = true ↔ now < t.expires_at) ∧ t.is_valid t.expires_at = false := by
  constructor
  · simp [Token.is_valid]
  · simp [Token.is_valid]

/-- Witness for `is_valid_iff_strictly_before` at a concrete token. -/
theorem is_valid_iff_strictly_before_witness :
    (Token.mk "bearer" "a" 7).is_valid 3 = true ∧
      (Token.mk "bearer" "a" 7).is_valid 7 = false :=
  ⟨(is_valid_iff_strictly_before 3 (Token.mk "bearer" "a" 7)).1.mpr (by decide),
    (is_valid_iff_strictly_before 3 (Token.mk "bearer" "a" 7)).2⟩

/-- C9.  Serializing a `Tokens` value (as `set_tokens` does) and then
deserializing the resulting bytes (as `get_tokens` does) yields the original
value; `TokensWF` only asks that the wire lengths fit in `bincode`'s `u64`
prefixes. -/
theorem tokens_serde_roundtrip (t : Tokens) (h : TokensWF t) :
    deserializeTokens (serializeTokens t) = some t := by
  obtain ⟨ha, hr⟩ := h
  unfold deserializeTokens serializeTokens
  rw [parseToken_rt _ _ ha]
  rw [Option.some_bind]
  simp only
  rw [parseToken_rt_nil _ hr]
  rfl

/-- Witness for `tokens_serde_roundtrip` at a concrete pair. -/
theorem tokens_serde_roundtrip_witness :
    TokensWF ⟨⟨"bearer", "acc", 100⟩, ⟨"bearer", "ref", -3⟩⟩ ∧
      deserializeTokens (serializeTokens ⟨⟨"bearer", "acc", 100⟩, ⟨"bearer", "ref", -3⟩⟩) =
        some ⟨⟨"bearer", "acc", 100⟩, ⟨"bearer", "ref", -3⟩⟩ :=
  ⟨by decide, tokens_serde_roundtrip _ (by decide)⟩

/-- C8.  A token blob that fails to deserialize makes `get_tokens` answer
exactly as if nothing were stored (`None`), and a capability error is also
swallowed into `None`: the read never propagates an error. -/
theorem get_tokens_fail_open :
    (∀ e : KVError, getTokensFromResponse (Except.error e) = none) ∧
      (∀ data : List Nat, deserializeTokens data = none →
        getTokensFromResponse (Except.ok (some data)) =
          getTokensFromResponse (Except.ok none)) := by
  constructor
  · intro e
    rfl
  · intro data h
    simp [getTokensFromResponse, h]

/-- Witness for `get_tokens_fail_open` on a concrete undecodable blob. -/
theorem get_tokens_fail_open_witness :
    deserializeTokens [0] = none ∧
      getTokensFromResponse (Except.ok (some [0])) =
        getTokensFromResponse (Except.ok none) :=
  ⟨by decide, get_tokens_fail_open.2 [0] (by decide)⟩

/-- C2.  The token manager's three-case contract, for every stored pair:
a valid access token is returned as-is with no network call; an expired
access token with a valid refresh token triggers exactly one refresh
exchange and the new pair's access token is returned; two expired tokens
yield no token and no network call.  (Key-value traffic is storage, not
network.) -/
theorem get_access_token_three_cases (stored : Tokens) (now : Int)
    (resp : GitHubAccessTokenResponse) (respTime : Int) :
    (getAccessTokenRun (some stored) now resp respTime).1 =
      (if stored.access_token.is_valid now then some stored.access_token
       else if stored.refresh_token.is_valid now then
         some (tokensFromResponse resp respTime).access_token
       else none) ∧
    ((getAccessTokenRun (some stored) now resp respTime).2.filter
        ManagerCall.isNetwork).length =
      (if stored.access_token.is_valid now then 0
       else if stored.refresh_token.is_valid now then 1 else 0) := by
  unfold getAccessTokenRun
  by_cases h1 : stored.access_token.is_valid now
  · simp [h1, ManagerCall.isNetwork]
  · by_cases h2 : stored.refresh_token.is_valid now
    · simp [h1, h2, ManagerCall.isNetwork]
    · simp [h1, h2, ManagerCall.isNetwork]

/-- C7.  On the refresh path (access expired, refresh valid) the manager's
only key-value write is the write-through of the pair it loaded; the freshly
obtained pair is never written by the manager itself. -/
theorem refresh_path_only_write_through (stored : Tokens) (now : Int)
    (resp : GitHubAccessTokenResponse) (respTime : Int)
    (h1 : stored.access_token.is_valid now = false)
    (h2 : stored.refresh_token.is_valid now = true) :
    ((getAccessTokenRun (some stored) now resp respTime).2.filter
        ManagerCall.isKvSet) =
      [ManagerCall.kvSet (serializeTokens stored)] := by
  unfold getAccessTokenRun
  simp [h1, h2, ManagerCall.isKvSet]

/-- Witness for `refresh_path_only_write_through`: access expired at `now =
150`, refresh still valid. -/
theorem refresh_path_only_write_through_witness :
    (Token.mk "bearer" "acc" 100).is_valid 150 = false ∧
      (Token.mk "bearer" "ref" 200).is_valid 150 = true ∧
      ((getAccessTokenRun
            (some ⟨⟨"bearer", "acc", 100⟩, ⟨"bearer", "ref", 200⟩⟩) 150
            ⟨"newacc", "bearer", "", 3600, "newref", 7200⟩ 150).2.filter
          ManagerCall.isKvSet) =
        [ManagerCall.kvSet
          (serializeTokens ⟨⟨"bearer", "acc", 100⟩, ⟨"bearer", "ref", 200⟩⟩)] :=
  ⟨by decide, by decide,
    refresh_path_only_write_through _ 150 _ 150 (by decide) (by decide)⟩

/-! ## Claim theorems: reducer behavior -/

/-- C4.  The reducer's treatment of a `Result` carrying a `GitHubApiError`
(`into_event`, `app.rs`): a transport-level `HttpError` is `panic!`ed on —
the process aborts (`none`) for every such error — while the
"re-authentication required" variant is recovered by redirecting to login.
This contradicts the specified policy of never aborting on transport
failures. -/
theorem transport_error_panics {α : Type} (msg : String) (map : α → Event) :
    intoEvent (Except.error (GitHubApiError.httpError msg)) map = none ∧
      intoEvent (Except.error GitHubApiError.reAuthenticationRequired) map =
        some Event.redirectToLogin :=
  ⟨rfl, rfl⟩

/-- C6.  Processing `OnTokensLoaded` with `suppress_store = true` issues no
key-value write; with `suppress_store = false` it issues exactly one
key-value write, of the serialized pair, and that write (third effect)
precedes the start of the user-fetch chain (the trailing key-value read
issued by `GetGithubUser`; the authenticated user request itself can only
follow that read). -/
theorem onTokensLoaded_write_discipline (m : Model) (rng : String) (t : Tokens) :
    runEvent 10 m rng (Event.onTokensLoaded t true) =
        some (m, [Eff.render, Eff.render, Eff.kvGet tokenKey]) ∧
      runEvent 10 m rng (Event.onTokensLoaded t false) =
        some (m, [Eff.render, Eff.render, Eff.kvSet tokenKey (serializeTokens t),
          Eff.render, Eff.kvGet tokenKey]) :=
  ⟨rfl, rfl⟩

/-- C10.  `LogoutButtonClicked` clears `user_info`, leaves the films list
(and the rest of the model) unchanged, and requests exactly one key-value
delete — of the token key — besides the render. -/
theorem logout_clears_user_keeps_films (m : Model) (rng : String) :
    runEvent 10 m rng Event.logoutButtonClicked =
      some ({ m with user_info := none }, [Eff.render, Eff.kvDelete tokenKey]) :=
  rfl

/-- C1 (amended).  For every message and model state on which `update`
returns (does not panic): the effect plan of that single call contains at
most one render request; when a render is present it is the first effect,
preceding every other effect of the same call; and it is present for every
arm except `RedirectToLogin` and `GetWatchHistoryFile`, which schedule no
render at all. -/
theorem update_render_at_most_once_first (e : Event) (m : Model) (rng : String)
    (r : Model × Cmd) (h : update e m rng = some r) :
    (if noRenderArm e then (Cmd.effects r.2).countP Eff.isRender = 0
     else (Cmd.effects r.2).countP Eff.isRender = 1 ∧
       (Cmd.effects r.2).head? = some Eff.render) := by
  cases e
  case callbackReceived url =>
    simp only [update] at h
    cases hp : parseUrl url with
    | none =>
      rw [hp] at h
      exact absurd h (by simp)
    | some parts =>
      rw [hp] at h
      simp only [Option.some.injEq] at h
      subst h
      simp [noRenderArm, Cmd.effects, Eff.isRender]
  case gotTokensFromStore tks =>
    cases tks with
    | none =>
      simp only [update, Option.some.injEq] at h
      subst h
      simp [noRenderArm, Cmd.effects, Eff.isRender]
    | some t =>
      simp only [update, Option.some.injEq] at h
      subst h
      simp [noRenderArm, Cmd.effects, Eff.isRender]
  case getTokensFromGitHub c =>
    cases c with
    | none =>
      simp only [update, Option.some.injEq] at h
      subst h
      simp [noRenderArm, Cmd.effects, Eff.isRender]
    | some code =>
      simp only [update, Option.some.injEq] at h
      subst h
      simp [noRenderArm, Cmd.effects, Eff.isRender]
  case onTokensLoaded t suppress =>
    simp only [update, Option.some.injEq] at h
    subst h
    cases suppress <;> simp [noRenderArm, Cmd.effects, Eff.isRender]
  all_goals
    simp only [update, Option.some.injEq] at h
    subst h
    simp [noRenderArm, Cmd.effects, Eff.isRender]

/-- Witness for `update_render_at_most_once_first` at `InitialLoad` and a
concrete model. -/
theorem update_render_at_most_once_first_witness :
    update Event.initialLoad m0 "state0" =
        some (m0, Cmd.par (Cmd.effect Eff.render) (Cmd.event Event.getGithubUser)) ∧
      (Cmd.effects (Cmd.par (Cmd.effect Eff.render)
          (Cmd.event Event.getGithubUser))).countP Eff.isRender = 1 ∧
      (Cmd.effects (Cmd.par (Cmd.effect Eff.render)
          (Cmd.event Event.getGithubUser))).head? = some Eff.render := by
  refine ⟨rfl, ?_⟩
  have h := update_render_at_most_once_first Event.initialLoad m0 "state0"
    (m0, Cmd.par (Cmd.effect Eff.render) (Cmd.event Event.getGithubUser)) rfl
  simpa [noRenderArm] using h

/-- Counterexample to C1 as stated: at `Event::RedirectToLogin` (a concrete
model, a concrete sampled state string) the effect plan of the `update` call
contains zero render requests, not exactly one. -/
theorem redirectToLogin_effect_plan_has_no_render :
    ((update Event.redirectToLogin m0 "abcdEFGH12345678").map
        (fun r => (Cmd.effects r.2).countP Eff.isRender)) = some 0 ∧
      ((update Event.redirectToLogin m0 "abcdEFGH12345678").map
        (fun r => (Cmd.effects r.2).countP Eff.isRender)) ≠ some 1 :=
  ⟨rfl, by decide⟩

/-- C3 (amended).  Processing `CallbackReceived(url)`: if the URL is
malformed, `update` panics (`Url::parse(..).expect(..)`), modelled as
`none`; if the URL parses but carries no `code` query parameter, the cascade
produces only render effects and nothing else; if a `code` parameter is
present, the cascade triggers exactly one HTTP request — the token exchange,
whose `code` query parameter equals that parameter's value. -/
theorem callback_code_behavior (u : String) (m : Model) (rng : String) :
    (parseUrl u = none → update (Event.callbackReceived u) m rng = none) ∧
      (∀ parts, parseUrl u = some parts → findCode parts = none →
        runEvent 10 m rng (Event.callbackReceived u) =
          some (m, [Eff.render, Eff.render])) ∧
      (∀ parts c, parseUrl u = some parts → findCode parts = some c →
        runEvent 10 m rng (Event.callbackReceived u) =
          some (m, [Eff.render, Eff.render,
            Eff.http (tokenExchangeRequest m.config c)])) := by
  refine ⟨?_, ?_, ?_⟩
  · intro hp
    simp [update, hp]
  · intro parts hp hc
    have hu : update (Event.callbackReceived u) m rng =
        some (m, Cmd.par (Cmd.effect Eff.render)
          (Cmd.event (Event.getTokensFromGitHub (findCode parts)))) := by
      simp [update, hp]
    unfold runEvent
    rw [hu]
    show runCmd rng 10 m (Cmd.par (Cmd.effect Eff.render)
      (Cmd.event (Event.getTokensFromGitHub (findCode parts)))) = _
    rw [hc]
    rfl
  · intro parts c hp hc
    have hu : update (Event.callbackReceived u) m rng =
        some (m, Cmd.par (Cmd.effect Eff.render)
          (Cmd.event (Event.getTokensFromGitHub (findCode parts)))) := by
      simp [update, hp]
    unfold runEvent
    rw [hu]
    show runCmd rng 10 m (Cmd.par (Cmd.effect Eff.render)
      (Cmd.event (Event.getTokensFromGitHub (findCode parts)))) = _
    rw [hc]
    rfl

/-- Witness for `callback_code_behavior` on a concrete callback URL carrying
`code=abc123`. -/
theorem callback_code_behavior_witness :
    parseUrl "https://app/cb?code=abc123" = some parts0 ∧
      findCode parts0 = some "abc123" ∧
      runEvent 10 m0 "s" (Event.callbackReceived "https://app/cb?code=abc123") =
        some (m0, [Eff.render, Eff.render,
          Eff.http (tokenExchangeRequest m0.config "abc123")]) :=
  ⟨by decide, by decide,
    (callback_code_behavior "https://app/cb?code=abc123" m0 "s").2.2 parts0 "abc123"
      (by decide) (by decide)⟩

/-- Counterexample to C3 as stated: a malformed callback URL is not handled
with a render-only plan — the `update` call panics (aborts), modelled as
`none`. -/
theorem callback_malformed_aborts :
    update (Event.callbackReceived "not a url") m0 "s" = none :=
  rfl
